import Mathlib

/-!
Verification of the minadb interactive terminal database browser core
(results grid, SQL editor completion engine, schema explorer tree).

The Go source is shallowly embedded: strings are Lean strings over their
character data (the repository only manipulates ASCII in the functions
modelled here, so byte-level Go code and character-level Lean code agree),
Go `int` is `Int`, and the bubbletea message/command plumbing is an
explicit `Cmd := Option Msg` value returned by each transition function.
Display width (lipgloss.Width) is modelled as character count, which is
exact for ASCII content.
-/

/-- ASCII model of Go `strings.ToUpper` on one character. -/
def upperChar (c : Char) : Char :=
  if 97 ≤ c.toNat ∧ c.toNat ≤ 122 then Char.ofNat (c.toNat - 32) else c

/-- ASCII model of Go `strings.ToLower` on one character. -/
def lowerChar (c : Char) : Char :=
  if 65 ≤ c.toNat ∧ c.toNat ≤ 90 then Char.ofNat (c.toNat + 32) else c

/-- Go `strings.ToUpper`. -/
def toUpperStr (s : String) : String := ⟨s.data.map upperChar⟩

/-- Go `strings.ToLower`. -/
def toLowerStr (s : String) : String := ⟨s.data.map lowerChar⟩

/-- Whitespace as recognized by Go `unicode.IsSpace`, restricted to ASCII. -/
def wsChar (c : Char) : Bool :=
  c = ' ' ∨ c = '\t' ∨ c = '\n' ∨ c = '\x0b' ∨ c = '\x0c' ∨ c = '\r'

/-- Go `strings.Fields`: split around runs of whitespace. The accumulator
holds the current in-progress token, reversed. -/
def fieldsAux : List Char → List Char → List String
  | [], acc => if acc.isEmpty then [] else [⟨acc.reverse⟩]
  | c :: cs, acc =>
    if wsChar c then
      if acc.isEmpty then fieldsAux cs []
      else (⟨acc.reverse⟩ : String) :: fieldsAux cs []
    else fieldsAux cs (c :: acc)

/-- Go `strings.Fields`. -/
def fields (s : String) : List String := fieldsAux s.data []

/-- Go `strings.TrimSpace` (ASCII model). -/
def trimSpace (s : String) : String :=
  ⟨((s.data.dropWhile wsChar).reverse.dropWhile wsChar).reverse⟩

/-- Cutset test for `strings.TrimRight(name, ";,()")`. -/
def isTrailerChar (c : Char) : Bool :=
  c = ';' ∨ c = ',' ∨ c = '(' ∨ c = ')'

/-- Go `strings.TrimRight(s, ";,()")`. -/
def trimTrailers (s : String) : String :=
  ⟨(s.data.reverse.dropWhile isTrailerChar).reverse⟩

/-- Go `strings.ReplaceAll(v, "'", "''")` on character data. -/
def escapeQuotesList : List Char → List Char
  | [] => []
  | c :: cs =>
    if c = '\x27' then c :: c :: escapeQuotesList cs
    else c :: escapeQuotesList cs

/-- Go `strings.ReplaceAll(v, "'", "''")`: double every single quote. -/
def escapeQuotes (v : String) : String := ⟨escapeQuotesList v.data⟩

/-- Go `strings.Join(parts, sep)`. -/
def joinSep (sep : String) : List String → String
  | [] => ""
  | [x] => x
  | x :: xs => x ++ sep ++ joinSep sep xs

/-- Go `strings.HasPrefix` on character data. -/
def hasPrefixStr (p s : String) : Bool := p.data.isPrefixOf s.data

/-- One hexadecimal digit, as produced by `encoding/json`. -/
def hexDigit (n : Nat) : Char :=
  if n < 10 then Char.ofNat (48 + n) else Char.ofNat (87 + n)

/-- Escaping of one character inside a JSON string literal, following
`encoding/json.Marshal` (HTML-escaping mode, its default). -/
def jsonEscapeChar (c : Char) : String :=
  if c = '"' then "\\\""
  else if c = '\\' then "\\\\"
  else if c = '\n' then "\\n"
  else if c = '\r' then "\\r"
  else if c = '\t' then "\\t"
  else if c = '<' then "\\u003c"
  else if c = '>' then "\\u003e"
  else if c = '&' then "\\u0026"
  else if c.toNat < 32 then
    ⟨['\\', 'u', '0', '0', hexDigit (c.toNat / 16), hexDigit (c.toNat % 16)]⟩
  else if c.toNat = 8232 then "\\u2028"
  else if c.toNat = 8233 then "\\u2029"
  else ⟨[c]⟩

/-- Go `json.Marshal` applied to a string value. -/
def jsonQuote (s : String) : String :=
  "\"" ++ joinSep "" (s.data.map jsonEscapeChar) ++ "\""

/-- Byte-wise lexicographic comparison of Go strings (`sort.Strings`
order), on character data; exact for ASCII. -/
def lexLeBool : List Char → List Char → Bool
  | [], _ => true
  | _ :: _, [] => false
  | a :: as, b :: bs =>
    if a.toNat < b.toNat then true
    else if b.toNat < a.toNat then false
    else lexLeBool as bs

/-- Go string `<=` as used by `sort.Strings`. -/
def strLe (a b : String) : Prop := lexLeBool a.data b.data = true

instance : DecidableRel strLe := fun a b => by
  unfold strLe; infer_instance

theorem lexLeBool_total (a b : List Char) :
    lexLeBool a b = true ∨ lexLeBool b a = true := by
  induction a generalizing b with
  | nil => left; rfl
  | cons x xs ih =>
    match b with
    | [] => right; rfl
    | y :: ys =>
      by_cases h1 : x.toNat < y.toNat
      · left; simp [lexLeBool, h1]
      · by_cases h2 : y.toNat < x.toNat
        · right; simp [lexLeBool, h2]
        · have := ih ys
          simp [lexLeBool, h1, h2]
          exact this

theorem lexLeBool_trans {a b c : List Char}
    (hab : lexLeBool a b = true) (hbc : lexLeBool b c = true) :
    lexLeBool a c = true := by
  induction a generalizing b c with
  | nil => rfl
  | cons x xs ih =>
    match b, c with
    | [], _ => simp [lexLeBool] at hab
    | _ :: _, [] => simp [lexLeBool] at hbc
    | y :: ys, z :: zs =>
      simp only [lexLeBool] at hab hbc ⊢
      by_cases hxy : x.toNat < y.toNat
      · by_cases hyz : y.toNat < z.toNat
        · simp [show x.toNat < z.toNat by omega]
        · simp only [hyz, if_false] at hbc
          by_cases hzy : z.toNat < y.toNat
          · simp [hzy] at hbc
          · simp [show x.toNat < z.toNat by omega]
      · simp only [hxy, if_false] at hab
        by_cases hyx : y.toNat < x.toNat
        · simp [hyx] at hab
        · by_cases hyz : y.toNat < z.toNat
          · simp [show x.toNat < z.toNat by omega]
          · simp only [hyz, if_false] at hbc
            by_cases hzy : z.toNat < y.toNat
            · simp [hzy] at hbc
            · have hxz : ¬ x.toNat < z.toNat := by omega
              have hzx : ¬ z.toNat < x.toNat := by omega
              simp only [hyx, if_false] at hab
              simp only [hzy, if_false] at hbc
              simp only [hxz, hzx, if_false]
              exact ih hab hbc

instance : IsTotal String strLe := ⟨fun a b => lexLeBool_total a.data b.data⟩

instance : IsTrans String strLe := ⟨fun _ _ _ => lexLeBool_trans⟩

/-- Go `sort.Strings` (ascending byte-lexicographic); modelled by
insertion sort, which produces the same sorted sequence. -/
def sortStrings (l : List String) : List String := List.insertionSort strLe l

/-! ## Results grid data model (internal/database/models.go, results package) -/

/-- database.QueryResult. -/
structure QueryResult where
  columns : List String
  rows : List (List String)
  rowCount : Int
  duration : Int := 0
deriving Repr, DecidableEq

/-- results.ViewMode. -/
inductive ViewMode
  | viewNormal
  | viewRecordDetail
  | viewCopyRowPrompt
  | viewExportPrompt
  | viewDeleteConfirm
deriving Repr, DecidableEq

/-- Messages the grid can emit through a returned bubbletea command. -/
inductive Msg
  | setEditorQuery (query : String)
  | executeQuery (query : String)
  | statusNotify (message : String)
deriving Repr, DecidableEq

/-- A returned `tea.Cmd` either carries one message or is nil. -/
def Cmd := Option Msg
deriving instance Repr, DecidableEq for Cmd

/-- results.Model (the fields used by the grid logic). -/
structure GridModel where
  result : Option QueryResult
  width : Int
  height : Int
  scrollY : Int
  cursorY : Int
  cursorX : Int
  colOffset : Int
  colWidths : List Int
  viewMode : ViewMode
  menuCursor : Int
  lastQuery : String
  statusMessage : String
deriving Repr, DecidableEq

/-- The zero value of results.Model, as built by results.New(). -/
def GridModel.new : GridModel :=
  { result := none, width := 0, height := 0, scrollY := 0, cursorY := 0,
    cursorX := 0, colOffset := 0, colWidths := [], viewMode := .viewNormal,
    menuCursor := 0, lastQuery := "", statusMessage := "" }

/-- results.Model.SetSize. -/
def GridModel.setSize (m : GridModel) (w h : Int) : GridModel :=
  { m with width := w, height := h }

/-- lipgloss.Width, modelled as character count (exact for ASCII). -/
def displayWidth (s : String) : Int := s.data.length

/-- Inner loop of calculateColumnWidths: widen each tracked width by the
cells of one row (`if i < len(colWidths) && w > colWidths[i]`). -/
def updateWidths : List Int → List String → List Int
  | ws, [] => ws
  | [], _ => []
  | w :: ws, c :: cs =>
    (if displayWidth c > w then displayWidth c else w) :: updateWidths ws cs

/-- results.Model.calculateColumnWidths. -/
def GridModel.calculateColumnWidths (m : GridModel) : GridModel :=
  match m.result with
  | none => { m with colWidths := [] }
  | some r =>
    if r.columns.length = 0 then { m with colWidths := [] }
    else
      let base := r.columns.map displayWidth
      let widened := r.rows.foldl updateWidths base
      { m with colWidths :=
          widened.map (fun w => if w < 8 then 8 else if w > 40 then 40 else w) }

/-- results.Model.SetResult. -/
def GridModel.setResult (m : GridModel) (r : QueryResult) : GridModel :=
  GridModel.calculateColumnWidths
    { m with result := some r, scrollY := 0, cursorY := 0, cursorX := 0,
             colOffset := 0, viewMode := .viewNormal, menuCursor := 0,
             statusMessage := "" }

/-- results.Model.SetLastQuery. -/
def GridModel.setLastQuery (m : GridModel) (q : String) : GridModel :=
  { m with lastQuery := q }

/-- results.Model.HasResult. -/
def GridModel.hasResult (m : GridModel) : Bool :=
  match m.result with
  | none => false
  | some r => r.columns.length > 0

/-- results.Model.getCellValue (actions.go). -/
def GridModel.getCellValue (m : GridModel) : String :=
  match m.result with
  | none => ""
  | some r =>
    if m.cursorY < 0 ∨ m.cursorY ≥ (r.rows.length : Int) then ""
    else
      let row := r.rows.getD m.cursorY.toNat []
      if m.cursorX < 0 ∨ m.cursorX ≥ (row.length : Int) then ""
      else row.getD m.cursorX.toNat ""

/-- results.Model.getColumnName (actions.go). -/
def GridModel.getColumnName (m : GridModel) : String :=
  match m.result with
  | none => ""
  | some r =>
    if m.cursorX < 0 ∨ m.cursorX ≥ (r.columns.length : Int) then ""
    else r.columns.getD m.cursorX.toNat ""

/-- truncateStatus (actions.go); Go slices bytes, modelled on characters. -/
def truncateStatus (s : String) (maxLen : Int) : String :=
  if (s.data.length : Int) ≤ maxLen then s
  else ⟨s.data.take (maxLen - 3).toNat⟩ ++ "..."

/-- results.Model.doCopyCell (actions.go). The clipboard write is modelled
as the second component (`some payload` when a write is performed); the
success branch of clipboard.WriteAll is taken. -/
def GridModel.doCopyCell (m : GridModel) : GridModel × Option String :=
  let val := m.getCellValue
  if val = "" then ({ m with statusMessage := "Nothing to copy" }, none)
  else ({ m with statusMessage := "Copied: " ++ truncateStatus val 40 }, some val)

/-- extractTableName (actions.go): scan for FROM/INTO/UPDATE followed by a
token that is nonempty after trimming trailing `;,()`. -/
def extractScan : List String → String
  | t :: next :: rest =>
    let tok := toUpperStr t
    if tok = "FROM" ∨ tok = "INTO" ∨ tok = "UPDATE" then
      let name := trimTrailers next
      if name ≠ "" then name else extractScan (next :: rest)
    else extractScan (next :: rest)
  | _ => "<table>"

/-- extractTableName (actions.go). -/
def extractTableName (query : String) : String :=
  if query = "" then "<table>"
  else extractScan (fields query)

/-- results.Model.doFilterByValue (actions.go). -/
def GridModel.doFilterByValue (m : GridModel) : GridModel × Cmd :=
  let col := m.getColumnName
  let val := m.getCellValue
  let table := extractTableName m.lastQuery
  if col = "" ∨ table = "" then
    ({ m with statusMessage := "Cannot filter: no cell selected" }, none)
  else
    let condition :=
      if val = "null" then col ++ " IS NULL"
      else col ++ " = \x27" ++ escapeQuotes val ++ "\x27"
    (m, some (.setEditorQuery ("SELECT * FROM " ++ table ++ " WHERE " ++ condition)))

/-- Condition list of doGenerateDelete (actions.go): one predicate per
column, stopping when the row runs out (`if i >= len(row) break`). -/
def deleteConditions : List String → List String → List String
  | [], _ => []
  | _ :: _, [] => []
  | col :: cols, v :: vs =>
    (if v = "null" then col ++ " IS NULL"
     else col ++ " = \x27" ++ escapeQuotes v ++ "\x27") :: deleteConditions cols vs

/-- results.Model.doGenerateDelete (actions.go). -/
def GridModel.doGenerateDelete (m : GridModel) : Cmd :=
  match m.result with
  | none => none
  | some r =>
    if m.cursorY < 0 ∨ m.cursorY ≥ (r.rows.length : Int) then none
    else
      let table := extractTableName m.lastQuery
      let row := r.rows.getD m.cursorY.toNat []
      let conditions := deleteConditions r.columns row
      let query := "-- review before executing!\nDELETE FROM " ++ table ++
        " WHERE " ++ joinSep " AND " conditions
      some (.setEditorQuery query)

/-- Entry list built by rowToJSON (actions.go): key in column order, cell
when present (`null` past the end of the row), sentinel "null" mapped to
JSON null. -/
def rowToJSONEntries : List String → List String → List String
  | [], _ => []
  | col :: cols, [] => (jsonQuote col ++ ": null") :: rowToJSONEntries cols []
  | col :: cols, v :: vs =>
    (jsonQuote col ++ ": " ++ (if v = "null" then "null" else jsonQuote v))
      :: rowToJSONEntries cols vs

/-- rowToJSON (actions.go): brace-wrapped, ", "-separated entries. -/
def rowToJSON (columns row : List String) : String :=
  "\x7b" ++ joinSep ", " (rowToJSONEntries columns row) ++ "\x7d"

/-! ## Grid windowing and key handling (results grid, part_002) -/

/-- results.Model.visibleRows: `max(1, height-8)`. -/
def GridModel.visibleRows (m : GridModel) : Int :=
  let v := m.height - 8
  if v < 1 then 1 else v

/-- results.Model.ensureVerticalWindow. -/
def GridModel.ensureVerticalWindow (m : GridModel) : GridModel :=
  match m.result with
  | none => { m with scrollY := 0, cursorY := 0 }
  | some r =>
    if r.rowCount = 0 then { m with scrollY := 0, cursorY := 0 }
    else
      let c1 := if m.cursorY < 0 then 0 else m.cursorY
      let c2 := if c1 ≥ r.rowCount then r.rowCount - 1 else c1
      let visible := m.visibleRows
      let s1 := if c2 < m.scrollY then c2 else m.scrollY
      let s2 := if c2 ≥ s1 + visible then c2 - visible + 1 else s1
      let maxScroll := max 0 (r.rowCount - visible)
      let s3 := if s2 > maxScroll then maxScroll else s2
      { m with cursorY := c2, scrollY := s3 }

/-- Packing loop of visibleColumnRange: accumulate `colWidths[i]+3` until
the next column would overflow `available`; the running total starts at 1
and the first column is always admitted. Returns the Go loop's final
`(end, total)`. -/
def packLoop (start : Nat) (available : Int) :
    List Int → Nat → Nat → Int → Nat × Int
  | [], _, e, total => (e, total)
  | w :: rest, i, e, total =>
    let colWidth := w + 3
    if e > start ∧ total + colWidth > available then (e, total)
    else packLoop start available rest (i + 1) (i + 1) (total + colWidth)

/-- results.Model.visibleColumnRange (returns `(fromCol, toCol)`). -/
def GridModel.visibleColumnRange (m : GridModel) : Int × Int :=
  match m.result with
  | none => (0, 0)
  | some r =>
    if r.columns.length = 0 then (0, 0)
    else if m.colOffset ≥ (r.columns.length : Int) then (0, (r.columns.length : Int))
    else
      let available := max 20 (m.width - 4)
      let start := (max 0 m.colOffset).toNat
      let e := (packLoop start available (m.colWidths.drop start) start start 1).1
      let e' := if e = start then min (start + 1) r.columns.length else e
      ((start : Int), (e' : Int))

/-- Loop body of ensureHorizontalWindow: advance colOffset until the
cursor column is inside the packed window. The Go `for` loop runs while
`colOffset < len(columns)`; the fuel argument dominates the remaining
iteration count, so the recursion is exactly the loop. -/
def ensureHLoop (numCols : Int) : Nat → GridModel → GridModel
  | 0, m => m
  | fuel + 1, m =>
    if m.colOffset < numCols then
      let toCol := m.visibleColumnRange.2
      if m.cursorX < toCol then m
      else ensureHLoop numCols fuel { m with colOffset := m.colOffset + 1 }
    else m

/-- results.Model.ensureHorizontalWindow. -/
def GridModel.ensureHorizontalWindow (m : GridModel) : GridModel :=
  match m.result with
  | none => m
  | some r =>
    if r.columns.length = 0 then m
    else
      let n : Int := r.columns.length
      let c1 := if m.cursorX < 0 then 0 else m.cursorX
      let c2 := if c1 ≥ n then n - 1 else c1
      let m1 := { m with cursorX := c2 }
      let m2 := if m1.cursorX < m1.colOffset then { m1 with colOffset := m1.cursorX } else m1
      ensureHLoop n (n - m2.colOffset).toNat m2

/-- results.Model.updateNormal (part_002): Normal-mode key dispatch. -/
def GridModel.updateNormal (m : GridModel) (key : String) : GridModel × Cmd :=
  match key with
  | "up" | "k" =>
    (match m.result with
     | some _ =>
       if m.cursorY > 0 then
         (GridModel.ensureVerticalWindow { m with cursorY := m.cursorY - 1 }, none)
       else (m, none)
     | none => (m, none))
  | "down" | "j" =>
    (match m.result with
     | some r =>
       if m.cursorY < r.rowCount - 1 then
         (GridModel.ensureVerticalWindow { m with cursorY := m.cursorY + 1 }, none)
       else (m, none)
     | none => (m, none))
  | "left" | "h" =>
    (match m.result with
     | some _ =>
       if m.cursorX > 0 then
         (GridModel.ensureHorizontalWindow { m with cursorX := m.cursorX - 1 }, none)
       else (m, none)
     | none => (m, none))
  | "right" | "l" =>
    (match m.result with
     | some r =>
       if m.cursorX < (r.columns.length : Int) - 1 then
         (GridModel.ensureHorizontalWindow { m with cursorX := m.cursorX + 1 }, none)
       else (m, none)
     | none => (m, none))
  | "pgup" =>
    (match m.result with
     | some _ =>
       let step := max 1 m.visibleRows
       let c := m.cursorY - step
       let c := if c < 0 then 0 else c
       (GridModel.ensureVerticalWindow { m with cursorY := c }, none)
     | none => (m, none))
  | "pgdown" =>
    (match m.result with
     | some r =>
       let step := max 1 m.visibleRows
       let c := m.cursorY + step
       let c := if c > r.rowCount - 1 then r.rowCount - 1 else c
       (GridModel.ensureVerticalWindow { m with cursorY := c }, none)
     | none => (m, none))
  | "home" =>
    (GridModel.ensureHorizontalWindow { m with cursorX := 0 }, none)
  | "end" =>
    (match m.result with
     | some r =>
       if r.columns.length > 0 then
         (GridModel.ensureHorizontalWindow
           { m with cursorX := (r.columns.length : Int) - 1 }, none)
       else (m, none)
     | none => (m, none))
  | "g" =>
    (GridModel.ensureVerticalWindow { m with cursorY := 0 }, none)
  | "G" =>
    (match m.result with
     | some r =>
       if r.rowCount > 0 then
         (GridModel.ensureVerticalWindow { m with cursorY := r.rowCount - 1 }, none)
       else (m, none)
     | none => (m, none))
  | "c" => ((m.doCopyCell).1, none)
  | "y" =>
    if m.hasResult then ({ m with viewMode := .viewCopyRowPrompt }, none) else (m, none)
  | "e" =>
    if m.hasResult then ({ m with viewMode := .viewExportPrompt }, none) else (m, none)
  | "D" =>
    if m.hasResult then ({ m with viewMode := .viewDeleteConfirm }, none) else (m, none)
  | "enter" =>
    if m.hasResult then
      ({ m with viewMode := .viewRecordDetail, menuCursor := m.cursorX }, none)
    else (m, none)
  | "f" =>
    if m.hasResult then m.doFilterByValue else (m, none)
  | _ => (m, none)

/-- results.Model.updateDeleteConfirm (part_002). -/
def GridModel.updateDeleteConfirm (m : GridModel) (key : String) : GridModel × Cmd :=
  match key with
  | "esc" | "n" => ({ m with viewMode := .viewNormal }, none)
  | "y" | "enter" =>
    let m' := { m with viewMode := .viewNormal }
    (m', m'.doGenerateDelete)
  | _ => (m, none)

/-! ## SQL editor completion engine (internal/tui/editor/editor.go) -/

/-- sqlKeywordList (editor.go). -/
def sqlKeywordList : List String :=
  ["SELECT", "FROM", "WHERE", "AND", "OR", "INSERT", "INTO", "UPDATE", "DELETE",
   "CREATE", "DROP", "ALTER", "TABLE", "INDEX", "JOIN", "INNER", "OUTER", "LEFT",
   "RIGHT", "CROSS", "ON", "NOT", "IN", "IS", "NULL", "LIKE", "ILIKE", "ORDER",
   "BY", "GROUP", "HAVING", "LIMIT", "OFFSET", "AS", "DISTINCT", "COUNT", "SUM",
   "AVG", "MIN", "MAX", "BETWEEN", "EXISTS", "CASE", "WHEN", "THEN", "ELSE", "END",
   "VALUES", "SET", "BEGIN", "COMMIT", "ROLLBACK", "UNION", "ALL", "ASC", "DESC",
   "PRIMARY", "KEY", "FOREIGN", "REFERENCES", "CASCADE", "RESTRICT", "DEFAULT",
   "RETURNING"]

/-- isIdentChar (editor.go): letters, digits, underscore, dot. -/
def isIdentChar (c : Char) : Bool :=
  (97 ≤ c.toNat ∧ c.toNat ≤ 122) ∨ (65 ≤ c.toNat ∧ c.toNat ≤ 90) ∨
  (48 ≤ c.toNat ∧ c.toNat ≤ 57) ∨ c = '_' ∨ c = '.'

/-- extractTrailingIdentifier (editor.go): the trailing identifier-character
run and its start offset (Go: byte offset; here: character offset, exact
for ASCII). -/
def extractTrailingIdentifier (s : String) : String × Nat :=
  let rev := s.data.reverse.takeWhile isIdentChar
  (⟨rev.reverse⟩, s.data.length - rev.length)

/-- lastSQLToken (editor.go). -/
def lastSQLToken (s : String) : String :=
  match (fields s).getLast? with
  | none => ""
  | some t => t

/-- Candidate filtering loop of getSuggestions (editor.go): skip empty
candidates, record every candidate in `seen` by its lowercase key, keep
the first occurrence of each key when the prefix matches. -/
def dedupFilter (prefixLower prefixUpper : String) :
    List String → List String → List String
  | [], _ => []
  | c :: cs, seen =>
    if c = "" then dedupFilter prefixLower prefixUpper cs seen
    else
      let k := toLowerStr c
      if k ∈ seen then dedupFilter prefixLower prefixUpper cs seen
      else if prefixLower = "" ∨ hasPrefixStr prefixLower (toLowerStr c)
              ∨ hasPrefixStr prefixUpper (toUpperStr c) then
        c :: dedupFilter prefixLower prefixUpper cs (k :: seen)
      else dedupFilter prefixLower prefixUpper cs (k :: seen)

/-- editor.Model.getSuggestions (editor.go). `value` is the textarea
content, `tableNames` the cached table list. -/
def getSuggestions (tableNames : List String) (value : String)
    (pfx : String) (start : Nat) : List String :=
  let prefixLower := toLowerStr pfx
  let prefixUpper := toUpperStr pfx
  let context := trimSpace (toUpperStr ⟨value.data.take start⟩)
  let last := lastSQLToken context
  let candidates :=
    if last = "FROM" ∨ last = "JOIN" ∨ last = "INTO" ∨ last = "UPDATE" ∨ last = "TABLE"
    then tableNames
    else if last = "SELECT" then "*" :: (sqlKeywordList ++ tableNames)
    else sqlKeywordList ++ tableNames
  let filtered := dedupFilter prefixLower prefixUpper candidates []
  let sorted := sortStrings filtered
  sorted.take 10

/-! ## Schema explorer tree (internal/tui/explorer/explorer.go) -/

/-- explorer.NodeKind. -/
inductive NodeKind
  | nodeDatabase
  | nodeSchema
  | nodeTable
  | nodeColumn
deriving Repr, DecidableEq

/-- database.Column (models.go); `colDefault` is the Go field `Default`. -/
structure DBColumn where
  name : String
  dataType : String
  isNullable : Bool := false
  isPrimary : Bool := false
  colDefault : String := ""
  ordinalPos : Int := 0
deriving Repr, DecidableEq

/-- explorer.TreeNode. `schema` and `table` are the owning schema and
table names carried by table/column nodes. -/
inductive TreeNode
  | mk (kind : NodeKind) (name : String) (children : List TreeNode)
       (expanded : Bool) (loaded : Bool)
       (schema : String) (table : String) (dataType : String) (rowCount : Int)

def TreeNode.kind : TreeNode → NodeKind
  | .mk k _ _ _ _ _ _ _ _ => k

def TreeNode.name : TreeNode → String
  | .mk _ n _ _ _ _ _ _ _ => n

def TreeNode.children : TreeNode → List TreeNode
  | .mk _ _ c _ _ _ _ _ _ => c

def TreeNode.expanded : TreeNode → Bool
  | .mk _ _ _ e _ _ _ _ _ => e

def TreeNode.loaded : TreeNode → Bool
  | .mk _ _ _ _ l _ _ _ _ => l

/-- The `Schema` field of a tree node (owning schema name). -/
def TreeNode.schemaName : TreeNode → String
  | .mk _ _ _ _ _ sc _ _ _ => sc

instance : Inhabited TreeNode :=
  ⟨.mk .nodeDatabase "" [] false false "" "" "" 0⟩

/-- Replace the children of a node. -/
def TreeNode.withChildren : TreeNode → List TreeNode → TreeNode
  | .mk k n _ e l s t d r, c => .mk k n c e l s t d r

/-- Set the expansion flag of a node. -/
def TreeNode.withExpanded : TreeNode → Bool → TreeNode
  | .mk k n c _ l s t d r, e => .mk k n c e l s t d r

/-- explorer.flatItem: a visible (node, depth) pair. -/
structure FlatItem where
  node : TreeNode
  depth : Nat

mutual

/-- explorer.Model.flattenNode: pre-order walk descending only into
expanded nodes. -/
def flattenNode : TreeNode → Nat → List FlatItem
  | .mk k n cs e l sc tb dt rc, depth =>
    { node := .mk k n cs e l sc tb dt rc, depth := depth } ::
      (if e then flattenChildren cs (depth + 1) else [])

/-- Flatten a list of sibling nodes at one depth. -/
def flattenChildren : List TreeNode → Nat → List FlatItem
  | [], _ => []
  | c :: cs, d => flattenNode c d ++ flattenChildren cs d

end

/-- explorer.Model: the tree plus the derived flattened view and cursor. -/
structure ExplorerModel where
  tree : Option TreeNode
  items : List FlatItem
  cursor : Int
  width : Int := 0
  height : Int := 0

/-- explorer.Model.flatten: rebuild `items` from the tree, then clamp the
cursor when it fell past the end. -/
def ExplorerModel.flatten (m : ExplorerModel) : ExplorerModel :=
  let items :=
    match m.tree with
    | none => []
    | some t => flattenNode t 0
  let cursor :=
    if m.cursor ≥ (items.length : Int) then max 0 ((items.length : Int) - 1)
    else m.cursor
  { m with items := items, cursor := cursor }

/-- Inner loop of explorer.Model.visitTable: apply `fn` to the first child
named `table` and stop; `none` when no child matches. -/
def visitTableChildren (table : String) (fn : TreeNode → TreeNode) :
    List TreeNode → Option (List TreeNode)
  | [] => none
  | t :: ts =>
    if t.name = table then some (fn t :: ts)
    else
      match visitTableChildren table fn ts with
      | some ts' => some (t :: ts')
      | none => none

/-- Outer loop of explorer.Model.visitTable over the root's schema
children: skip children whose name differs, return as soon as `fn` was
applied inside one schema child. -/
def visitTableList (schema table : String) (fn : TreeNode → TreeNode) :
    List TreeNode → List TreeNode
  | [] => []
  | s :: ss =>
    if s.name = schema then
      match visitTableChildren table fn s.children with
      | some cs => s.withChildren cs :: ss
      | none => s :: visitTableList schema table fn ss
    else s :: visitTableList schema table fn ss

/-- explorer.Model.visitTable as a pure tree transformation. -/
def visitTable (root : TreeNode) (schema table : String)
    (fn : TreeNode → TreeNode) : TreeNode :=
  root.withChildren (visitTableList schema table fn root.children)

/-- The mutation SetColumns applies to the found table node: replace its
children with column nodes and mark it loaded. -/
def attachColumnsFn (schema table : String) (columns : List DBColumn)
    (node : TreeNode) : TreeNode :=
  match node with
  | .mk k n _ e _ sc tb dt rc =>
    TreeNode.mk k n
      (columns.map (fun col =>
        TreeNode.mk .nodeColumn col.name [] false false schema table col.dataType 0))
      e true sc tb dt rc

/-- explorer.Model.SetColumns. -/
def ExplorerModel.setColumns (m : ExplorerModel) (schema table : String)
    (columns : List DBColumn) : ExplorerModel :=
  match m.tree with
  | none => m
  | some root =>
    ExplorerModel.flatten
      { m with tree := some (visitTable root schema table
          (attachColumnsFn schema table columns)) }

mutual

/-- Apply `f` to the node at visible (expansion-aware pre-order) index
`n` inside one subtree; `.inr leftover` when the subtree holds fewer than
`n+1` visible nodes. This realizes the Go pointer mutation
`m.items[m.cursor].node` on the pure tree. -/
def modVisit (f : TreeNode → TreeNode) : TreeNode → Nat → Sum TreeNode Nat
  | node, 0 => .inl (f node)
  | .mk k nm cs e l sc tb dt rc, n + 1 =>
    if e then
      match modVisitList f cs n with
      | .inl cs' => .inl (.mk k nm cs' e l sc tb dt rc)
      | .inr leftover => .inr leftover
    else .inr n

/-- Thread a visible index through a list of sibling subtrees. -/
def modVisitList (f : TreeNode → TreeNode) : List TreeNode → Nat → Sum (List TreeNode) Nat
  | [], n => .inr n
  | c :: cs, n =>
    match modVisit f c n with
    | .inl c' => .inl (c' :: cs)
    | .inr n' =>
      match modVisitList f cs n' with
      | .inl cs' => .inl (c :: cs')
      | .inr n'' => .inr n''

end

/-- Modify the tree at the visible index the cursor points at. -/
def modifyTreeAt (t : Option TreeNode) (idx : Nat) (f : TreeNode → TreeNode) :
    Option TreeNode :=
  match t with
  | none => none
  | some root =>
    match modVisit f root idx with
    | .inl root' => some root'
    | .inr _ => some root

/-- explorer.Model.collapse (explorer.go). -/
def ExplorerModel.collapse (m : ExplorerModel) : ExplorerModel :=
  if m.cursor < 0 ∨ m.cursor ≥ (m.items.length : Int) then m
  else
    let node := (m.items.getD m.cursor.toNat { node := default, depth := 0 }).node
    if node.expanded then
      ExplorerModel.flatten
        { m with tree := modifyTreeAt m.tree m.cursor.toNat (fun nd => nd.withExpanded false) }
    else m

/-- explorer.Model.toggleExpand (explorer.go). The command requesting a
column fetch is modelled as `some (schema, tableName)`. -/
def ExplorerModel.toggleExpand (m : ExplorerModel) : ExplorerModel × Option (String × String) :=
  if m.cursor < 0 ∨ m.cursor ≥ (m.items.length : Int) then (m, none)
  else
    let node := (m.items.getD m.cursor.toNat { node := default, depth := 0 }).node
    if node.kind = .nodeColumn then (m, none)
    else if node.expanded then
      (ExplorerModel.flatten
        { m with tree := modifyTreeAt m.tree m.cursor.toNat (fun nd => nd.withExpanded false) },
       none)
    else
      let m' := ExplorerModel.flatten
        { m with tree := modifyTreeAt m.tree m.cursor.toNat (fun nd => nd.withExpanded true) }
      if node.kind = .nodeTable ∧ node.loaded = false then
        (m', some (node.schemaName, node.name))
      else (m', none)

/-! ## Derived predicates used by the specification statements -/

/-- Sum of `width + 3` over the column window `[a, b)`. -/
def windowSum (ws : List Int) (a b : Nat) : Int :=
  (((ws.drop a).take (b - a)).map (fun w => w + 3)).sum

/-- No FROM/INTO/UPDATE token of the list is followed by a token that
survives trimming of trailing `;,()` (out-of-range successors read as
the empty string, which also survives as empty). -/
def noTableToken (tokens : List String) : Prop :=
  ∀ i < tokens.length,
    (toUpperStr (tokens.getD i "") = "FROM" ∨ toUpperStr (tokens.getD i "") = "INTO" ∨
     toUpperStr (tokens.getD i "") = "UPDATE") →
    trimTrailers (tokens.getD (i + 1) "") = ""

instance (tokens : List String) : Decidable (noTableToken tokens) := by
  unfold noTableToken; infer_instance

/-- The vertical-window invariant of the results grid (claimed in the
spec): nonnegative scroll, scroll clamped by `totalRows - visibleRows`,
and the cursor row inside the scroll window. -/
def vertInv (m : GridModel) : Prop :=
  0 ≤ m.scrollY ∧ m.scrollY ≤ m.cursorY ∧ m.cursorY < m.scrollY + m.visibleRows ∧
  ∀ r, m.result = some r → m.scrollY ≤ max 0 (r.rowCount - m.visibleRows)

/-! ## Theorems -/

/-- extractScan never produces the empty string. -/
theorem extractScan_ne_empty (l : List String) : extractScan l ≠ "" := by
  induction l with
  | nil => simp [extractScan]
  | cons t ts ih =>
    match ts with
    | [] => simp [extractScan]
    | next :: rest =>
      simp only [extractScan]
      by_cases hkw : toUpperStr t = "FROM" ∨ toUpperStr t = "INTO" ∨ toUpperStr t = "UPDATE"
      · simp only [hkw, if_true]
        by_cases hnm : trimTrailers next ≠ ""
        · simp [hnm]
        · simpa [hnm] using ih
      · simpa [hkw] using ih

/-- extractTableName never produces the empty string. -/
theorem extractTableName_ne_empty (q : String) : extractTableName q ≠ "" := by
  unfold extractTableName
  split
  · simp
  · exact extractScan_ne_empty _

/-- extractScan yields the placeholder when no keyword token has a
successor that survives trimming. -/
theorem extractScan_noTableToken (l : List String) (h : noTableToken l) :
    extractScan l = "<table>" := by
  induction l with
  | nil => rfl
  | cons t ts ih =>
    match ts with
    | [] => rfl
    | next :: rest =>
      have hshift : noTableToken (next :: rest) := by
        intro i hi hkw
        have := h (i + 1) (by simpa using Nat.succ_lt_succ hi)
        simpa using this (by simpa using hkw)
      simp only [extractScan]
      split
      · next hkw =>
        have h0 := h 0 (by simp)
        simp only [List.getD_cons_zero, List.getD_cons_succ] at h0
        have hnext : trimTrailers next = "" := h0 hkw
        simp only [hnext]
        simp only [ne_eq, not_true_eq_false, if_false]
        exact ih hshift
      · exact ih hshift

/-- C10: the table-name extraction used by filter-by-value and delete
generation is total and never returns an empty string; whenever the
query is empty, or no FROM/INTO/UPDATE token is followed by a token that
is nonempty after trimming trailing `;,()`, it returns the literal
placeholder "<table>"; consequently the filter guard never fires on
account of the table. -/
theorem c10_extract_table_name_total (q : String)
    (hno : q = "" ∨ noTableToken (fields q)) :
    extractTableName q = "<table>" ∧
    (∀ q2 : String, extractTableName q2 ≠ "") ∧
    (∀ m : GridModel, m.getColumnName ≠ "" → (m.doFilterByValue).2 ≠ none) := by
  refine ⟨?_, fun q2 => extractTableName_ne_empty q2, fun m hcol => ?_⟩
  · rcases hno with h | h
    · simp [extractTableName, h]
    · unfold extractTableName
      split
      · rfl
      · exact extractScan_noTableToken _ h
  · unfold GridModel.doFilterByValue
    have htab := extractTableName_ne_empty m.lastQuery
    simp only [hcol, htab, or_self, if_false]
    simp

/-- Witness for C10 at the concrete query "SELECT 1" (no FROM token). -/
theorem c10_witness : extractTableName "SELECT 1" = "<table>" :=
  (c10_extract_table_name_total "SELECT 1" (Or.inr (by decide))).1

/-- C6: with a selected column, filter-by-value emits exactly one
editor-suggestion command whose query is SELECT * FROM table WHERE with
an equality on the quote-doubled value, or IS NULL for the "null"
sentinel, the table being extracted from the last executed query; at the
scenario input (column email, cell value a-quote-b, table users) the
query is exactly the expected literal. -/
theorem c6_filter_by_value_query (m : GridModel)
    (hcol : m.getColumnName ≠ "") :
    m.doFilterByValue = (m, some (.setEditorQuery
      ("SELECT * FROM " ++ extractTableName m.lastQuery ++ " WHERE " ++
        (if m.getCellValue = "null" then m.getColumnName ++ " IS NULL"
         else m.getColumnName ++ " = \x27" ++ escapeQuotes m.getCellValue ++ "\x27")))) ∧
    (((((GridModel.new.setSize 80 24).setResult
          ⟨["email"], [["a\x27b"]], 1, 0⟩).setLastQuery
          "SELECT * FROM users").doFilterByValue).2 =
      some (.setEditorQuery "SELECT * FROM users WHERE email = \x27a\x27\x27b\x27")) := by
  constructor
  · unfold GridModel.doFilterByValue
    have htab := extractTableName_ne_empty m.lastQuery
    simp only [hcol, htab, or_self, if_false]
  · decide

/-- Witness for C6 at the scenario model. -/
theorem c6_witness :
    (((GridModel.new.setSize 80 24).setResult
        ⟨["email"], [["a\x27b"]], 1, 0⟩).setLastQuery
        "SELECT * FROM users").doFilterByValue =
      ((((GridModel.new.setSize 80 24).setResult
        ⟨["email"], [["a\x27b"]], 1, 0⟩).setLastQuery "SELECT * FROM users"),
       some (.setEditorQuery "SELECT * FROM users WHERE email = \x27a\x27\x27b\x27")) := by
  have h := c6_filter_by_value_query
    (((GridModel.new.setSize 80 24).setResult
        ⟨["email"], [["a\x27b"]], 1, 0⟩).setLastQuery "SELECT * FROM users")
    (by decide)
  rw [h.1]
  decide

/-- C5: converting a row to JSON yields an object whose keys appear in
exactly the column order (the entry list is the column-order zip of keys
and cells, one entry per column), with the sentinel "null" mapped to the
JSON null literal; at the scenario input (columns id,name and row
2,null) the output is the expected literal. -/
theorem c5_row_to_json_order (cols row : List String)
    (hlen : row.length = cols.length) :
    rowToJSON cols row = "\x7b" ++ joinSep ", "
      (List.zipWith (fun col v => jsonQuote col ++ ": " ++
        (if v = "null" then "null" else jsonQuote v)) cols row) ++ "\x7d" ∧
    (rowToJSONEntries cols row).length = cols.length ∧
    rowToJSON ["id", "name"] ["2", "null"] =
      "\x7b\"id\": \"2\", \"name\": null\x7d" := by
  refine ⟨?_, ?_, by decide⟩
  · unfold rowToJSON
    congr 1
    congr 1
    congr 1
    induction cols generalizing row with
    | nil => cases row <;> rfl
    | cons c cs ih =>
      cases row with
      | nil => simp at hlen
      | cons v vs =>
        simp only [rowToJSONEntries, List.zipWith]
        rw [ih vs (by simpa using hlen)]
  · induction cols generalizing row with
    | nil => cases row <;> rfl
    | cons c cs ih =>
      cases row with
      | nil => simp at hlen
      | cons v vs =>
        simp only [rowToJSONEntries, List.length_cons]
        rw [ih vs (by simpa using hlen)]

/-- Witness for C5 at the scenario result set. -/
theorem c5_witness :
    rowToJSON ["id", "name"] ["2", "null"] =
      "\x7b" ++ joinSep ", "
        (List.zipWith (fun col v => jsonQuote col ++ ": " ++
          (if v = "null" then "null" else jsonQuote v))
          ["id", "name"] ["2", "null"]) ++ "\x7d" :=
  (c5_row_to_json_order ["id", "name"] ["2", "null"] (by decide)).1

/-- The delete-condition loop is the column-order zip of columns and row
cells. -/
theorem deleteConditions_eq_zipWith (cols row : List String) :
    deleteConditions cols row =
      List.zipWith (fun col v =>
        if v = "null" then col ++ " IS NULL"
        else col ++ " = \x27" ++ escapeQuotes v ++ "\x27") cols row := by
  induction cols generalizing row with
  | nil => cases row <;> rfl
  | cons c cs ih =>
    cases row with
    | nil => rfl
    | cons v vs => simp only [deleteConditions, List.zipWith]; rw [ih vs]

/-- C1: confirming the delete prompt returns the grid to Normal mode and
emits exactly one put-this-SQL-in-the-editor command whose text is the
reviewer comment followed by a DELETE statement with one predicate per
column in column order (IS NULL for the "null" sentinel, quote-doubled
equality otherwise); it never emits a query-execution message. -/
theorem c1_delete_confirm_emits_editor_sql (m : GridModel) (r : QueryResult)
    (key : String) (hres : m.result = some r) (h0 : 0 ≤ m.cursorY)
    (h1 : m.cursorY < (r.rows.length : Int)) (hkey : key = "y" ∨ key = "enter") :
    ((m.updateDeleteConfirm key).1.viewMode = .viewNormal ∧
     (m.updateDeleteConfirm key).2 = some (.setEditorQuery
       ("-- review before executing!\nDELETE FROM " ++
         extractTableName m.lastQuery ++ " WHERE " ++
         joinSep " AND " (List.zipWith (fun col v =>
           if v = "null" then col ++ " IS NULL"
           else col ++ " = \x27" ++ escapeQuotes v ++ "\x27")
           r.columns (r.rows.getD m.cursorY.toNat [])))) ∧
     (∀ q, (m.updateDeleteConfirm key).2 ≠ some (.executeQuery q))) := by
  have hbody : m.updateDeleteConfirm key =
      ({ m with viewMode := .viewNormal },
       ({ m with viewMode := .viewNormal } : GridModel).doGenerateDelete) := by
    rcases hkey with h | h <;> subst h <;> rfl
  have hgen : ({ m with viewMode := .viewNormal } : GridModel).doGenerateDelete =
      some (.setEditorQuery
        ("-- review before executing!\nDELETE FROM " ++
          extractTableName m.lastQuery ++ " WHERE " ++
          joinSep " AND " (deleteConditions r.columns
            (r.rows.getD m.cursorY.toNat [])))) := by
    unfold GridModel.doGenerateDelete
    simp only [hres]
    have : ¬ (m.cursorY < 0 ∨ m.cursorY ≥ (r.rows.length : Int)) := by omega
    simp only [this, if_false]
  refine ⟨by rw [hbody], ?_, ?_⟩
  · rw [hbody]
    simp only [hgen, deleteConditions_eq_zipWith]
  · intro q
    rw [hbody]
    simp only [hgen, deleteConditions_eq_zipWith]
    intro hcontra
    exact Msg.noConfusion (Option.some.inj hcontra)

/-- Witness for C1: a concrete two-column grid in DeleteConfirm mode. -/
theorem c1_witness :
    letI m := { ((GridModel.new.setSize 80 24).setResult
        ⟨["id", "name"], [["2", "a\x27b"]], 1, 0⟩).setLastQuery "select * from t1"
        with viewMode := ViewMode.viewDeleteConfirm }
    (m.updateDeleteConfirm "y").1.viewMode = .viewNormal ∧
    (m.updateDeleteConfirm "y").2 = some (.setEditorQuery
      ("-- review before executing!\nDELETE FROM " ++
        extractTableName m.lastQuery ++ " WHERE " ++
        joinSep " AND " (List.zipWith (fun col v =>
          if v = "null" then col ++ " IS NULL"
          else col ++ " = \x27" ++ escapeQuotes v ++ "\x27")
          ["id", "name"] ([["2", "a\x27b"]].getD m.cursorY.toNat [])))) ∧
    (∀ q, (m.updateDeleteConfirm "y").2 ≠ some (.executeQuery q)) :=
  c1_delete_confirm_emits_editor_sql _ ⟨["id", "name"], [["2", "a\x27b"]], 1, 0⟩
    "y" (by decide) (by decide) (by decide) (Or.inl rfl)

/-- C9 counterexample: on a cell holding the null sentinel string "null"
the copy action performs a clipboard write of the literal "null" and
reports "Copied: null" instead of "Nothing to copy". -/
theorem c9_counterexample :
    letI m := (GridModel.new.setSize 80 24).setResult ⟨["a"], [["null"]], 1, 0⟩
    m.getCellValue = "null" ∧
    (m.doCopyCell).2 = some "null" ∧
    (m.doCopyCell).1.statusMessage = "Copied: null" := by
  decide

/-- C9 (amended): the copy-cell action reports "Nothing to copy" and
performs no clipboard write exactly when the cell value under the cursor
is the empty string (which covers a missing result set and an
out-of-range cursor); for any other value, including the "null"
sentinel, it writes the raw value to the clipboard. -/
theorem c9_copy_cell_empty_guard (m : GridModel) :
    (m.getCellValue = "" →
      m.doCopyCell = ({ m with statusMessage := "Nothing to copy" }, none)) ∧
    (m.getCellValue ≠ "" →
      m.doCopyCell = ({ m with statusMessage :=
        "Copied: " ++ truncateStatus m.getCellValue 40 }, some m.getCellValue)) := by
  constructor
  · intro h
    unfold GridModel.doCopyCell
    simp only [h, if_true]
  · intro h
    unfold GridModel.doCopyCell
    simp only [h, if_false]

/-- Witness for C9 on a grid with no result set (empty cell value). -/
theorem c9_witness :
    GridModel.new.doCopyCell =
      ({ GridModel.new with statusMessage := "Nothing to copy" }, none) :=
  (c9_copy_cell_empty_guard GridModel.new).1 (by decide)

/-- When no child carries the requested table name, the inner visit loop
finds nothing. -/
theorem visitTableChildren_none (table : String) (fn : TreeNode → TreeNode)
    (ts : List TreeNode) (h : ∀ t ∈ ts, t.name ≠ table) :
    visitTableChildren table fn ts = none := by
  induction ts with
  | nil => rfl
  | cons t ts ih =>
    simp only [visitTableChildren]
    have ht : t.name ≠ table := h t (by simp)
    simp only [ht, if_false]
    rw [ih (fun x hx => h x (by simp [hx]))]

/-- When no (schema, table) pair matches, the outer visit loop returns
the children unchanged. -/
theorem visitTableList_noop (schema table : String) (fn : TreeNode → TreeNode)
    (ss : List TreeNode)
    (h : ∀ s ∈ ss, s.name = schema → ∀ t ∈ s.children, t.name ≠ table) :
    visitTableList schema table fn ss = ss := by
  induction ss with
  | nil => rfl
  | cons s ss ih =>
    simp only [visitTableList]
    by_cases hs : s.name = schema
    · simp only [hs, if_true]
      rw [visitTableChildren_none table fn s.children (h s (by simp) hs)]
      rw [ih (fun x hx => h x (by simp [hx]))]
    · simp only [hs, if_false]
      rw [ih (fun x hx => h x (by simp [hx]))]

/-- Replacing the children of a node by themselves is the identity. -/
theorem withChildren_self (t : TreeNode) : t.withChildren t.children = t := by
  cases t; rfl

/-- C7: attaching column metadata for a (schema, table) pair with no
matching table node in the current tree is a complete no-op: the tree
(nodes and expansion flags) and the flattened view are unchanged. -/
theorem c7_attach_columns_missing_noop (m : ExplorerModel) (root : TreeNode)
    (schema table : String) (cols : List DBColumn)
    (htree : m.tree = some root)
    (hsync : m.items = flattenNode root 0)
    (hcur : m.cursor < (m.items.length : Int))
    (hmiss : ∀ s ∈ root.children, s.name = schema →
      ∀ t ∈ s.children, t.name ≠ table) :
    m.setColumns schema table cols = m := by
  unfold ExplorerModel.setColumns
  simp only [htree]
  unfold visitTable
  rw [visitTableList_noop schema table _ root.children hmiss, withChildren_self]
  unfold ExplorerModel.flatten
  simp only [← hsync, ← htree]
  have hc : ¬ m.cursor ≥ (m.items.length : Int) := by omega
  simp only [hc, if_false]

/-- Witness for C7: attaching columns for (public, orders) to a tree that
only contains (public, users). -/
theorem c7_witness :
    letI users := TreeNode.mk .nodeTable "users" [] false false "public" "" "" 0
    letI pub := TreeNode.mk .nodeSchema "public" [users] false true "" "" "" 0
    letI root := TreeNode.mk .nodeDatabase "db" [pub] true true "" "" "" 0
    letI m : ExplorerModel :=
      { tree := some root, items := flattenNode root 0, cursor := 0 }
    m.setColumns "public" "orders" [⟨"id", "integer", false, false, "", 1⟩] = m := by
  exact c7_attach_columns_missing_noop _ _ "public" "orders" _ rfl rfl
    (by decide) (by decide)

/-- C8 counterexample: the only expand operation is toggleExpand, and
applying it to an already-expanded node (the expanded root with one
visible child) collapses it, shrinking the flattened view from two
items to one. -/
theorem c8_counterexample :
    letI pub := TreeNode.mk .nodeSchema "public" [] false true "" "" "" 0
    letI root := TreeNode.mk .nodeDatabase "db" [pub] true true "" "" "" 0
    letI m : ExplorerModel :=
      { tree := some root, items := flattenNode root 0, cursor := 0 }
    m.items.length = 2 ∧
    (m.items.getD 0 ⟨default, 0⟩).node.expanded = true ∧
    (m.toggleExpand).1.items.length = 1 := by
  decide

/-- C8 (amended): collapsing an already-collapsed node produces no change
at all (in particular none to the flattened view); toggle-expand applied
to an already-expanded node is not a no-op in general: it collapses the
node, as on the expanded root above, where the flattened view shrinks
from two items to one. -/
theorem c8_collapse_idempotent_toggle_not (m : ExplorerModel)
    (h0 : 0 ≤ m.cursor) (h1 : m.cursor < (m.items.length : Int))
    (hnode : (m.items.getD m.cursor.toNat ⟨default, 0⟩).node.expanded = false) :
    m.collapse = m ∧
    (letI pub := TreeNode.mk .nodeSchema "public" [] false true "" "" "" 0
     letI root := TreeNode.mk .nodeDatabase "db" [pub] true true "" "" "" 0
     letI mx : ExplorerModel :=
       { tree := some root, items := flattenNode root 0, cursor := 0 }
     (mx.toggleExpand).1.items.length = 1 ∧ mx.items.length = 2) := by
  refine ⟨?_, by decide, by decide⟩
  unfold ExplorerModel.collapse
  have hg : ¬ (m.cursor < 0 ∨ m.cursor ≥ (m.items.length : Int)) := by omega
  simp only [hg, if_false, hnode]
  simp

/-- Witness for C8: a tree whose root is collapsed; collapse is a no-op. -/
theorem c8_witness :
    letI pub := TreeNode.mk .nodeSchema "public" [] false true "" "" "" 0
    letI root := TreeNode.mk .nodeDatabase "db" [pub] false true "" "" "" 0
    letI m : ExplorerModel :=
      { tree := some root, items := flattenNode root 0, cursor := 0 }
    m.collapse = m :=
  (c8_collapse_idempotent_toggle_not _ (by decide) (by decide) (by decide)).1

/-- Invariant of the column-packing loop: entered at position `i` with
running total `total` (which already satisfies the budget when at least
two columns are packed), the loop only moves forward, stays within the
remaining list, accumulates exactly the widths-plus-3 of the columns it
packs, and respects the budget whenever the window got at least two
columns. -/
theorem packLoop_spec (avail : Int) (start : Nat) (l : List Int) :
    ∀ (i : Nat) (total : Int), start ≤ i → (start + 2 ≤ i → total ≤ avail) →
    i ≤ (packLoop start avail l i i total).1 ∧
    (packLoop start avail l i i total).1 ≤ i + l.length ∧
    (packLoop start avail l i i total).2 =
      total + ((l.take ((packLoop start avail l i i total).1 - i)).map
        (fun w => w + 3)).sum ∧
    (start + 2 ≤ (packLoop start avail l i i total).1 →
      (packLoop start avail l i i total).2 ≤ avail) := by
  induction l with
  | nil =>
    intro i total hsi hinv
    refine ⟨le_refl i, by simp [packLoop], by simp [packLoop], ?_⟩
    simp only [packLoop]
    exact hinv
  | cons w rest ih =>
    intro i total hsi hinv
    by_cases hbrk : i > start ∧ total + (w + 3) > avail
    · simp only [packLoop, hbrk, if_true]
      refine ⟨le_refl i, by simp, by simp, hinv⟩
    · have hstep : packLoop start avail (w :: rest) i i total =
          packLoop start avail rest (i + 1) (i + 1) (total + (w + 3)) := by
        simp only [packLoop, hbrk, if_false]
      have hinv' : start + 2 ≤ i + 1 → total + (w + 3) ≤ avail := by
        intro h2
        rcases not_and_or.mp hbrk with h | h
        · omega
        · omega
      obtain ⟨ha, hb, hc, hd⟩ := ih (i + 1) (total + (w + 3)) (by omega) hinv'
      rw [hstep]
      set p := packLoop start avail rest (i + 1) (i + 1) (total + (w + 3)) with hp
      refine ⟨by omega, by simp only [List.length_cons]; omega, ?_, hd⟩
      obtain ⟨k, hk⟩ : ∃ k, p.1 - i = k + 1 := ⟨p.1 - (i + 1), by omega⟩
      have hk2 : p.1 - (i + 1) = k := by omega
      rw [hk, List.take_succ_cons, List.map_cons, List.sum_cons, hc, hk2]
      ring

/-- C3 counterexample: one column of clamped width 8 in a pane of width
10 (state reached directly by SetResult after SetSize, left offset 0):
the window is the single column and its width-plus-padding sum is 11,
which exceeds the pane width. -/
theorem c3_counterexample :
    letI m := (GridModel.new.setSize 10 24).setResult ⟨["c"], [["x"]], 1, 0⟩
    m.colOffset = 0 ∧
    m.visibleColumnRange = (0, 1) ∧
    windowSum m.colWidths 0 1 = 11 ∧
    m.width = 10 ∧ ¬ windowSum m.colWidths 0 1 ≤ m.width := by
  decide

/-- C3 (amended): for a result set with at least one column and any
in-range left offset, the visible window always contains at least one
column; the greedy packing bound holds for every column after the first:
whenever the window has at least two columns, the packed total (the
1-cell leading border plus each column width plus its 3-cell allowance)
fits in `max 20 (paneWidth - 4)`. A single-column window may exceed the
pane width. -/
theorem c3_visible_column_window (m : GridModel) (r : QueryResult)
    (hres : m.result = some r) (hcols : 0 < r.columns.length)
    (hw : m.colWidths.length = r.columns.length)
    (hoff0 : 0 ≤ m.colOffset) (hoff1 : m.colOffset < (r.columns.length : Int)) :
    m.visibleColumnRange.1 < m.visibleColumnRange.2 ∧
    (m.visibleColumnRange.1 + 2 ≤ m.visibleColumnRange.2 →
      1 + windowSum m.colWidths m.visibleColumnRange.1.toNat
        m.visibleColumnRange.2.toNat ≤ max 20 (m.width - 4)) := by
  unfold GridModel.visibleColumnRange
  simp only [hres]
  have hne : ¬ r.columns.length = 0 := by omega
  have hoff2 : ¬ m.colOffset ≥ (r.columns.length : Int) := by omega
  simp only [hne, hoff2, if_false]
  have hstart : (max 0 m.colOffset).toNat = m.colOffset.toNat := by omega
  set start := (max 0 m.colOffset).toNat with hstartdef
  have hslt : start < r.columns.length := by omega
  set avail := max 20 (m.width - 4) with havail
  obtain ⟨ha, hb, hc, hd⟩ :=
    packLoop_spec avail start (m.colWidths.drop start) start 1
      (le_refl start) (by omega)
  set e := (packLoop start avail (m.colWidths.drop start) start start 1).1 with he
  by_cases heq : e = start
  · simp only [heq, if_true]
    have hmin : min (start + 1) r.columns.length = start + 1 := by omega
    constructor
    · simp only [hmin]
      omega
    · intro hcontra
      simp only [hmin] at hcontra
      omega
  · simp only [heq, if_false]
    constructor
    · omega
    · intro h2
      have h2' : start + 2 ≤ e := by omega
      have hbound := hd h2'
      have : windowSum m.colWidths ((start : Int)).toNat ((e : Int)).toNat =
          (((m.colWidths.drop start).take (e - start)).map (fun w => w + 3)).sum := by
        unfold windowSum
        simp
      rw [this]
      omega

/-- Witness for C3 at a concrete three-column grid of pane width 80. -/
theorem c3_witness :
    letI m := (GridModel.new.setSize 80 24).setResult
      ⟨["a", "b", "c"], [["1", "2", "3"]], 1, 0⟩
    m.visibleColumnRange.1 < m.visibleColumnRange.2 ∧
    (m.visibleColumnRange.1 + 2 ≤ m.visibleColumnRange.2 →
      1 + windowSum m.colWidths m.visibleColumnRange.1.toNat
        m.visibleColumnRange.2.toNat ≤ max 20 (m.width - 4)) :=
  c3_visible_column_window _ ⟨["a", "b", "c"], [["1", "2", "3"]], 1, 0⟩
    (by decide) (by decide) (by decide) (by decide) (by decide)

/-- Character codes below 1000 round-trip through Char.ofNat. -/
theorem toNat_ofNat_small (n : Nat) (h : n ≤ 1000) : (Char.ofNat n).toNat = n := by
  have hv : n.isValidChar := Or.inl (by omega)
  simp [Char.ofNat, hv]
  simp [Char.ofNatAux, Char.toNat, UInt32.toNat, BitVec.toNat_ofNatLt]

/-- Lowercasing after uppercasing agrees with lowercasing directly. -/
theorem lowerChar_upperChar (c : Char) : lowerChar (upperChar c) = lowerChar c := by
  unfold upperChar lowerChar
  by_cases h : 97 ≤ c.toNat ∧ c.toNat ≤ 122
  · simp only [h, and_self, if_true]
    have h1 : (Char.ofNat (c.toNat - 32)).toNat = c.toNat - 32 :=
      toNat_ofNat_small _ (by have := c.val.toNat_lt; omega)
    rw [h1]
    have h2 : 65 ≤ c.toNat - 32 ∧ c.toNat - 32 ≤ 90 := by omega
    have h3 : ¬ (65 ≤ c.toNat ∧ c.toNat ≤ 90) := by omega
    simp only [h2, and_self, if_true, h3, if_false]
    have h4 : c.toNat - 32 + 32 = c.toNat := by omega
    rw [h4, Char.ofNat_toNat]
  · simp [h]

/-- A case-insensitive prefix witnessed through uppercase forms is also
witnessed through lowercase forms. -/
theorem upper_prefix_to_lower (p x : String)
    (h : hasPrefixStr (toUpperStr p) (toUpperStr x) = true) :
    hasPrefixStr (toLowerStr p) (toLowerStr x) = true := by
  unfold hasPrefixStr toUpperStr at h
  unfold hasPrefixStr toLowerStr
  rw [List.isPrefixOf_iff_prefix] at h ⊢
  have h2 := h.map lowerChar
  simp only [List.map_map] at h2
  have hfun : lowerChar ∘ upperChar = lowerChar := by
    funext c
    exact lowerChar_upperChar c
  rwa [hfun] at h2

/-- Every output of the filtering loop came from the candidate list. -/
theorem dedupFilter_subset (pl pu : String) (cand seen : List String) :
    ∀ x ∈ dedupFilter pl pu cand seen, x ∈ cand := by
  induction cand generalizing seen with
  | nil => intro x hx; simp [dedupFilter] at hx
  | cons c cs ih =>
    intro x hx
    simp only [dedupFilter] at hx
    by_cases hc : c = ""
    · simp only [hc, if_true] at hx
      exact List.mem_cons_of_mem _ (ih seen x hx)
    · simp only [hc, if_false] at hx
      by_cases hk : toLowerStr c ∈ seen
      · simp only [hk, if_true] at hx
        exact List.mem_cons_of_mem _ (ih seen x hx)
      · simp only [hk, if_false] at hx
        by_cases hp : pl = "" ∨ hasPrefixStr pl (toLowerStr c) = true ∨
            hasPrefixStr pu (toUpperStr c) = true
        · simp only [hp, if_true, List.mem_cons] at hx
          rcases hx with h | h
          · simp [h]
          · exact List.mem_cons_of_mem _ (ih _ x h)
        · simp only [hp, if_false] at hx
          exact List.mem_cons_of_mem _ (ih _ x hx)

/-- Every output of the filtering loop passed the prefix test. -/
theorem dedupFilter_prefix (pl pu : String) (cand seen : List String) :
    ∀ x ∈ dedupFilter pl pu cand seen,
      pl = "" ∨ hasPrefixStr pl (toLowerStr x) = true ∨
      hasPrefixStr pu (toUpperStr x) = true := by
  induction cand generalizing seen with
  | nil => intro x hx; simp [dedupFilter] at hx
  | cons c cs ih =>
    intro x hx
    simp only [dedupFilter] at hx
    by_cases hc : c = ""
    · simp only [hc, if_true] at hx
      exact ih seen x hx
    · simp only [hc, if_false] at hx
      by_cases hk : toLowerStr c ∈ seen
      · simp only [hk, if_true] at hx
        exact ih seen x hx
      · simp only [hk, if_false] at hx
        by_cases hp : pl = "" ∨ hasPrefixStr pl (toLowerStr c) = true ∨
            hasPrefixStr pu (toUpperStr c) = true
        · simp only [hp, if_true, List.mem_cons] at hx
          rcases hx with h | h
          · subst h; exact hp
          · exact ih _ x h
        · simp only [hp, if_false] at hx
          exact ih _ x hx

/-- Every output of the filtering loop has a lowercase key outside the
incoming seen set. -/
theorem dedupFilter_fresh (pl pu : String) (cand seen : List String) :
    ∀ x ∈ dedupFilter pl pu cand seen, toLowerStr x ∉ seen := by
  induction cand generalizing seen with
  | nil => intro x hx; simp [dedupFilter] at hx
  | cons c cs ih =>
    intro x hx
    simp only [dedupFilter] at hx
    by_cases hc : c = ""
    · simp only [hc, if_true] at hx
      exact ih seen x hx
    · simp only [hc, if_false] at hx
      by_cases hk : toLowerStr c ∈ seen
      · simp only [hk, if_true] at hx
        exact ih seen x hx
      · simp only [hk, if_false] at hx
        by_cases hp : pl = "" ∨ hasPrefixStr pl (toLowerStr c) = true ∨
            hasPrefixStr pu (toUpperStr c) = true
        · simp only [hp, if_true, List.mem_cons] at hx
          rcases hx with h | h
          · subst h; exact hk
          · have := ih (toLowerStr c :: seen) x h
            intro hmem
            exact this (List.mem_cons_of_mem _ hmem)
        · simp only [hp, if_false] at hx
          have := ih (toLowerStr c :: seen) x hx
          intro hmem
          exact this (List.mem_cons_of_mem _ hmem)

/-- No two outputs of the filtering loop share a lowercase key. -/
theorem dedupFilter_pairwise (pl pu : String) (cand seen : List String) :
    List.Pairwise (fun a b => toLowerStr a ≠ toLowerStr b)
      (dedupFilter pl pu cand seen) := by
  induction cand generalizing seen with
  | nil => simp [dedupFilter]
  | cons c cs ih =>
    simp only [dedupFilter]
    by_cases hc : c = ""
    · simp only [hc, if_true]; exact ih seen
    · simp only [hc, if_false]
      by_cases hk : toLowerStr c ∈ seen
      · simp only [hk, if_true]; exact ih seen
      · simp only [hk, if_false]
        by_cases hp : pl = "" ∨ hasPrefixStr pl (toLowerStr c) = true ∨
            hasPrefixStr pu (toUpperStr c) = true
        · simp only [hp, if_true]
          refine List.Pairwise.cons ?_ (ih _)
          intro y hy
          have := dedupFilter_fresh pl pu cs (toLowerStr c :: seen) y hy
          intro hcontra
          exact this (by simp [← hcontra])
        · simp only [hp, if_false]; exact ih _

/-- C4: for every buffer text and table-name set, the completion
candidate list computed from the extracted trailing identifier is a
subset of keywords, table names and "*"; every entry has the partial
identifier as a case-insensitive prefix; no two entries agree
case-insensitively; the list is sorted; and it holds at most 10
entries. -/
theorem c4_suggestions_sound (tableNames : List String) (value : String) :
    (∀ x ∈ getSuggestions tableNames value (extractTrailingIdentifier value).1
        (extractTrailingIdentifier value).2,
      x ∈ sqlKeywordList ∨ x ∈ tableNames ∨ x = "*") ∧
    (∀ x ∈ getSuggestions tableNames value (extractTrailingIdentifier value).1
        (extractTrailingIdentifier value).2,
      hasPrefixStr (toLowerStr (extractTrailingIdentifier value).1) (toLowerStr x) = true) ∧
    List.Pairwise (fun a b => toLowerStr a ≠ toLowerStr b)
      (getSuggestions tableNames value (extractTrailingIdentifier value).1
        (extractTrailingIdentifier value).2) ∧
    List.Sorted strLe (getSuggestions tableNames value (extractTrailingIdentifier value).1
        (extractTrailingIdentifier value).2) ∧
    (getSuggestions tableNames value (extractTrailingIdentifier value).1
        (extractTrailingIdentifier value).2).length ≤ 10 := by
  set pfx := (extractTrailingIdentifier value).1 with hpfx
  set start := (extractTrailingIdentifier value).2 with hstart
  set L := getSuggestions tableNames value pfx start with hLdef
  unfold getSuggestions at hLdef
  set context := trimSpace (toUpperStr ⟨value.data.take start⟩) with hctx
  set last := lastSQLToken context with hlast
  set candidates :=
    (if last = "FROM" ∨ last = "JOIN" ∨ last = "INTO" ∨ last = "UPDATE" ∨ last = "TABLE"
     then tableNames
     else if last = "SELECT" then "*" :: (sqlKeywordList ++ tableNames)
     else sqlKeywordList ++ tableNames) with hcand
  have hcandmem : ∀ x ∈ candidates, x ∈ sqlKeywordList ∨ x ∈ tableNames ∨ x = "*" := by
    intro x hx
    rw [hcand] at hx
    split at hx
    · exact Or.inr (Or.inl hx)
    · split at hx
      · simp only [List.mem_cons, List.mem_append] at hx
        rcases hx with h | h | h
        · exact Or.inr (Or.inr h)
        · exact Or.inl h
        · exact Or.inr (Or.inl h)
      · simp only [List.mem_append] at hx
        rcases hx with h | h
        · exact Or.inl h
        · exact Or.inr (Or.inl h)
  set filtered := dedupFilter (toLowerStr pfx) (toUpperStr pfx) candidates [] with hfil
  have hmemL : ∀ x ∈ L, x ∈ filtered := by
    intro x hx
    rw [hLdef] at hx
    have h1 : x ∈ sortStrings filtered :=
      (List.take_sublist 10 _).mem hx
    unfold sortStrings at h1
    rwa [List.mem_insertionSort] at h1
  refine ⟨?_, ?_, ?_, ?_, ?_⟩
  · intro x hx
    exact hcandmem x (dedupFilter_subset _ _ _ _ x (hmemL x hx))
  · intro x hx
    have hp := dedupFilter_prefix _ _ _ _ x (hmemL x hx)
    rcases hp with h | h | h
    · have hdata : (toLowerStr pfx).data = [] := by rw [h]
      unfold hasPrefixStr
      rw [hdata]
      simp [List.isPrefixOf]
    · exact h
    · exact upper_prefix_to_lower pfx x h
  · have hpair : List.Pairwise (fun a b => toLowerStr a ≠ toLowerStr b) filtered :=
      dedupFilter_pairwise _ _ _ _
    have hperm : List.Perm (sortStrings filtered) filtered :=
      List.perm_insertionSort strLe filtered
    have hpair2 : List.Pairwise (fun a b => toLowerStr a ≠ toLowerStr b)
        (sortStrings filtered) := by
      rw [List.Perm.pairwise_iff (fun h hc => h hc.symm) hperm]
      exact hpair
    rw [hLdef]
    exact hpair2.sublist (List.take_sublist 10 _)
  · have hsorted : List.Sorted strLe (sortStrings filtered) :=
      List.sorted_insertionSort strLe filtered
    rw [hLdef]
    exact hsorted.sublist (List.take_sublist 10 _)
  · rw [hLdef]
    simp [List.length_take]

/-- The visible row count is `max 1 (height - 8)` and is positive. -/
theorem visibleRows_eq (m : GridModel) :
    m.visibleRows = max 1 (m.height - 8) ∧ 1 ≤ m.visibleRows := by
  unfold GridModel.visibleRows
  dsimp only
  constructor
  · split <;> omega
  · split <;> omega

/-- ensureVerticalWindow keeps every field except cursorY and scrollY. -/
theorem ensureVerticalWindow_fields (m : GridModel) :
    (m.ensureVerticalWindow).result = m.result ∧
    (m.ensureVerticalWindow).height = m.height ∧
    (m.ensureVerticalWindow).width = m.width ∧
    (m.ensureVerticalWindow).cursorX = m.cursorX ∧
    (m.ensureVerticalWindow).colOffset = m.colOffset := by
  unfold GridModel.ensureVerticalWindow
  split
  · exact ⟨rfl, rfl, rfl, rfl, rfl⟩
  · split
    · exact ⟨rfl, rfl, rfl, rfl, rfl⟩
    · exact ⟨rfl, rfl, rfl, rfl, rfl⟩

set_option maxHeartbeats 2000000 in
/-- Whenever the previous scroll offset was nonnegative and the result
is a nonempty set, ensureVerticalWindow establishes the full vertical
invariant. -/
theorem ensureVerticalWindow_inv (m : GridModel) (r : QueryResult)
    (hres : m.result = some r) (hrc : 1 ≤ r.rowCount) (hs : 0 ≤ m.scrollY) :
    vertInv (m.ensureVerticalWindow) := by
  unfold GridModel.ensureVerticalWindow
  rw [hres]
  dsimp only
  have hne : ¬ r.rowCount = 0 := by omega
  rw [if_neg hne]
  unfold vertInv GridModel.visibleRows
  dsimp only
  refine ⟨?_, ?_, ?_, ?_⟩
  · split_ifs <;> omega
  · split_ifs <;> omega
  · split_ifs <;> omega
  · intro r2 hr2
    have hr2' : r2 = r := (Option.some.inj hr2).symm
    subst hr2'
    split_ifs <;> omega

/-- The horizontal advance loop never touches the vertical state, the
result set, or the pane size. -/
theorem ensureHLoop_fields (n : Int) (fuel : Nat) (m : GridModel) :
    (ensureHLoop n fuel m).scrollY = m.scrollY ∧
    (ensureHLoop n fuel m).cursorY = m.cursorY ∧
    (ensureHLoop n fuel m).result = m.result ∧
    (ensureHLoop n fuel m).height = m.height := by
  induction fuel generalizing m with
  | zero => exact ⟨rfl, rfl, rfl, rfl⟩
  | succ fuel ih =>
    unfold ensureHLoop
    dsimp only
    split
    · split
      · exact ⟨rfl, rfl, rfl, rfl⟩
      · exact ih _
    · exact ⟨rfl, rfl, rfl, rfl⟩

/-- ensureHorizontalWindow never touches the vertical state, the result
set, or the pane size. -/
theorem ensureHorizontalWindow_fields (m : GridModel) :
    (m.ensureHorizontalWindow).scrollY = m.scrollY ∧
    (m.ensureHorizontalWindow).cursorY = m.cursorY ∧
    (m.ensureHorizontalWindow).result = m.result ∧
    (m.ensureHorizontalWindow).height = m.height := by
  unfold GridModel.ensureHorizontalWindow
  split
  · exact ⟨rfl, rfl, rfl, rfl⟩
  · split
    · exact ⟨rfl, rfl, rfl, rfl⟩
    · dsimp only
      refine ⟨?_, ?_, ?_, ?_⟩
      · rw [(ensureHLoop_fields _ _ _).1]
        split_ifs <;> rfl
      · rw [(ensureHLoop_fields _ _ _).2.1]
        split_ifs <;> rfl
      · rw [(ensureHLoop_fields _ _ _).2.2.1]
        split_ifs <;> rfl
      · rw [(ensureHLoop_fields _ _ _).2.2.2]
        split_ifs <;> rfl

/-- doCopyCell only changes the status message. -/
theorem doCopyCell_fields (m : GridModel) :
    ((m.doCopyCell).1).scrollY = m.scrollY ∧
    ((m.doCopyCell).1).cursorY = m.cursorY ∧
    ((m.doCopyCell).1).result = m.result ∧
    ((m.doCopyCell).1).height = m.height := by
  unfold GridModel.doCopyCell
  dsimp only
  split
  · exact ⟨rfl, rfl, rfl, rfl⟩
  · exact ⟨rfl, rfl, rfl, rfl⟩

/-- doFilterByValue leaves the model unchanged except possibly the
status message. -/
theorem doFilterByValue_fields (m : GridModel) :
    ((m.doFilterByValue).1).scrollY = m.scrollY ∧
    ((m.doFilterByValue).1).cursorY = m.cursorY ∧
    ((m.doFilterByValue).1).result = m.result ∧
    ((m.doFilterByValue).1).height = m.height := by
  unfold GridModel.doFilterByValue
  dsimp only
  split
  · exact ⟨rfl, rfl, rfl, rfl⟩
  · exact ⟨rfl, rfl, rfl, rfl⟩

/-- Transport of the vertical invariant along equality of the four
fields it depends on. -/
theorem vertInv_congr (m m2 : GridModel)
    (hs : m2.scrollY = m.scrollY) (hcy : m2.cursorY = m.cursorY)
    (hr : m2.result = m.result) (hh : m2.height = m.height)
    (h : vertInv m) : vertInv m2 := by
  unfold vertInv at h ⊢
  have hvis : m2.visibleRows = m.visibleRows := by
    unfold GridModel.visibleRows
    rw [hh]
  rw [hs, hcy, hvis, hr]
  exact h

/-- Every Normal-mode key handler preserves the vertical invariant, the
result set, and the pane height (for a nonempty result set). -/
theorem updateNormal_inv (m : GridModel) (r : QueryResult) (key : String)
    (hres : m.result = some r) (hrc : 1 ≤ r.rowCount)
    (hinv : vertInv m) :
    vertInv ((m.updateNormal key).1) ∧
    ((m.updateNormal key).1).result = m.result ∧
    ((m.updateNormal key).1).height = m.height := by
  obtain ⟨hs0, hsc, hcv, hmax⟩ := hinv
  unfold GridModel.updateNormal
  split
  all_goals first
  | exact ⟨⟨hs0, hsc, hcv, hmax⟩, rfl, rfl⟩
  | (simp only [hres]
     try dsimp only
     first
     | (split
        · exact ⟨ensureVerticalWindow_inv _ r rfl hrc hs0,
            (ensureVerticalWindow_fields _).1, (ensureVerticalWindow_fields _).2.1⟩
        · exact ⟨⟨hs0, hsc, hcv, hmax⟩, hres, rfl⟩)
     | (split
        · exact ⟨vertInv_congr m _ (ensureHorizontalWindow_fields _).1
            (ensureHorizontalWindow_fields _).2.1
            ((ensureHorizontalWindow_fields _).2.2.1.trans hres.symm)
            (ensureHorizontalWindow_fields _).2.2.2 ⟨hs0, hsc, hcv, hmax⟩,
            (ensureHorizontalWindow_fields _).2.2.1, (ensureHorizontalWindow_fields _).2.2.2⟩
        · exact ⟨⟨hs0, hsc, hcv, hmax⟩, hres, rfl⟩)
     | exact ⟨ensureVerticalWindow_inv _ r rfl hrc hs0,
         (ensureVerticalWindow_fields _).1, (ensureVerticalWindow_fields _).2.1⟩)
  | exact ⟨vertInv_congr m _ (ensureHorizontalWindow_fields _).1
      (ensureHorizontalWindow_fields _).2.1 (ensureHorizontalWindow_fields _).2.2.1
      (ensureHorizontalWindow_fields _).2.2.2 ⟨hs0, hsc, hcv, hmax⟩,
      (ensureHorizontalWindow_fields _).2.2.1, (ensureHorizontalWindow_fields _).2.2.2⟩
  | exact ⟨vertInv_congr m _ (doCopyCell_fields _).1 (doCopyCell_fields _).2.1
      (doCopyCell_fields _).2.2.1 (doCopyCell_fields _).2.2.2 ⟨hs0, hsc, hcv, hmax⟩,
      (doCopyCell_fields _).2.2.1, (doCopyCell_fields _).2.2.2⟩
  | (split
     · exact ⟨vertInv_congr m _ rfl rfl rfl rfl ⟨hs0, hsc, hcv, hmax⟩, rfl, rfl⟩
     · exact ⟨⟨hs0, hsc, hcv, hmax⟩, rfl, rfl⟩)
  | (split
     · exact ⟨vertInv_congr m _ (doFilterByValue_fields _).1 (doFilterByValue_fields _).2.1
         (doFilterByValue_fields _).2.2.1 (doFilterByValue_fields _).2.2.2
         ⟨hs0, hsc, hcv, hmax⟩,
         (doFilterByValue_fields _).2.2.1, (doFilterByValue_fields _).2.2.2⟩
     · exact ⟨⟨hs0, hsc, hcv, hmax⟩, rfl, rfl⟩)

/-- Folding any key sequence through the Normal-mode handler preserves
the vertical invariant together with the result set and pane height. -/
theorem foldl_updateNormal_inv (r : QueryResult) (hrc : 1 ≤ r.rowCount)
    (keys : List String) (m : GridModel)
    (hres : m.result = some r) (hinv : vertInv m) :
    ((keys.foldl (fun acc k => (acc.updateNormal k).1) m).result = some r ∧
     (keys.foldl (fun acc k => (acc.updateNormal k).1) m).height = m.height) ∧
    vertInv (keys.foldl (fun acc k => (acc.updateNormal k).1) m) := by
  induction keys generalizing m with
  | nil => exact ⟨⟨hres, rfl⟩, hinv⟩
  | cons k ks ih =>
    simp only [List.foldl_cons]
    obtain ⟨hstep, hres2, hh2⟩ := updateNormal_inv m r k hres hrc hinv
    obtain ⟨⟨ha, hb⟩, hc⟩ := ih ((m.updateNormal k).1) (hres2.trans hres) hstep
    exact ⟨⟨ha, hb.trans hh2⟩, hc⟩

/-- C2: for every nonempty result set and every pane size, after any
sequence of Normal-mode key events starting from SetResult the vertical
state satisfies 0 ≤ scrollY ≤ max 0 (totalRows - visibleRows) and
scrollY ≤ cursorY < scrollY + visibleRows, where the visible row count
is max 1 (paneHeight - 8). -/
theorem c2_vertical_window_invariant (w h : Int) (r : QueryResult)
    (keys : List String) (hne : r.rows ≠ [])
    (hrc : r.rowCount = (r.rows.length : Int)) :
    letI mf := keys.foldl (fun acc k => (acc.updateNormal k).1)
      ((GridModel.new.setSize w h).setResult r)
    0 ≤ mf.scrollY ∧
    mf.scrollY ≤ max 0 ((r.rows.length : Int) - mf.visibleRows) ∧
    mf.scrollY ≤ mf.cursorY ∧
    mf.cursorY < mf.scrollY + mf.visibleRows ∧
    mf.visibleRows = max 1 (h - 8) := by
  have hrows : 1 ≤ (r.rows.length : Int) := by
    have : r.rows.length ≠ 0 := fun hz => hne (List.length_eq_zero.mp hz)
    omega
  have hrc1 : 1 ≤ r.rowCount := by omega
  set m0 := (GridModel.new.setSize w h).setResult r with hm0
  have hres0 : m0.result = some r := by
    rw [hm0]
    unfold GridModel.setResult GridModel.calculateColumnWidths
    dsimp only
    split <;> rfl
  have hinv0 : vertInv m0 := by
    have hvis := (visibleRows_eq m0).2
    unfold vertInv
    refine ⟨?_, ?_, ?_, ?_⟩
    · rw [hm0]
      unfold GridModel.setResult GridModel.calculateColumnWidths
      dsimp only
      split <;> simp
    · rw [hm0]
      unfold GridModel.setResult GridModel.calculateColumnWidths
      dsimp only
      split <;> simp
    · have hs : m0.scrollY = 0 := by
        rw [hm0]
        unfold GridModel.setResult GridModel.calculateColumnWidths
        dsimp only
        split <;> rfl
      have hc : m0.cursorY = 0 := by
        rw [hm0]
        unfold GridModel.setResult GridModel.calculateColumnWidths
        dsimp only
        split <;> rfl
      rw [hs, hc]
      omega
    · intro r2 hr2
      have : r2 = r := by
        rw [hres0] at hr2
        exact (Option.some.inj hr2).symm
      subst this
      have hs : m0.scrollY = 0 := by
        rw [hm0]
        unfold GridModel.setResult GridModel.calculateColumnWidths
        dsimp only
        split <;> rfl
      rw [hs]
      omega
  obtain ⟨⟨hresf, hhf⟩, hs0, hsc, hcv, hmax⟩ :=
    foldl_updateNormal_inv r hrc1 keys m0 hres0 hinv0
  have hh0 : m0.height = h := by
    rw [hm0]
    unfold GridModel.setResult GridModel.calculateColumnWidths GridModel.setSize
    dsimp only
    split <;> rfl
  refine ⟨hs0, ?_, hsc, hcv, ?_⟩
  · have := hmax r hresf
    rw [hrc] at this
    exact this
  · have hv := (visibleRows_eq (keys.foldl (fun acc k => (acc.updateNormal k).1) m0)).1
    rw [hv, hhf, hh0]

/-- Witness for C2: three down-keys on a five-row set in a short pane. -/
theorem c2_witness :
    letI mf := (["down", "down", "down"] : List String).foldl
      (fun acc k => (acc.updateNormal k).1)
      ((GridModel.new.setSize 80 10).setResult
        ⟨["a"], [["1"], ["2"], ["3"], ["4"], ["5"]], 5, 0⟩)
    0 ≤ mf.scrollY ∧
    mf.scrollY ≤ max 0 ((5 : Int) - mf.visibleRows) ∧
    mf.scrollY ≤ mf.cursorY ∧
    mf.cursorY < mf.scrollY + mf.visibleRows ∧
    mf.visibleRows = max 1 ((10 : Int) - 8) := by
  have h := c2_vertical_window_invariant 80 10
    ⟨["a"], [["1"], ["2"], ["3"], ["4"], ["5"]], 5, 0⟩
    ["down", "down", "down"] (by decide) (by decide)
  exact h
